import Mathlib

/-!
A shallow embedding of the data pipeline of the Table component
(global search, per-column filters, sorting, pagination, sticky-column
offsets) and of the MultiSelectDropdown popover controller, together with
theorems checking the specification's claims about them.

Host-environment primitives are modelled on the value domains the component
actually feeds them:
* `new Date(v)` is modelled for ISO `YYYY-MM-DD` strings (the format the
  date filter inputs produce); every other shape is an invalid date, whose
  comparisons are all false (modelled as `none`).
* `Number(v)` is modelled for integer strings; a non-numeric string is NaN,
  modelled as `none`, and every `===`/`<`/`>` comparison involving NaN is
  false.
* `localeCompare` is modelled as code-point string comparison returning
  -1/0/1; it agrees with the host on equal strings, which is all the
  stability and null-placement claims use.
* `Array.prototype.sort` is guaranteed stable by ECMAScript 2019; it is
  modelled as a stable insertion sort driven by the comparator.
-/

/-- A JavaScript value that can appear in a row field. -/
inductive JSVal where
  | str (s : String)
  | num (n : Int)
  | null
  | undef
deriving DecidableEq

/-- A data row: a record indexed by column key.  A key that is absent from
the list reads as `undefined`, as in JavaScript. -/
abbrev Row := List (String × JSVal)

/-- `row[key]`: field access on a row, `undefined` when the key is absent. -/
def rowGet (row : Row) (key : String) : JSVal :=
  match row.lookup key with
  | some v => v
  | none => JSVal.undef

/-- JavaScript `String(v)` for the modelled values: `String(null) = "null"`,
`String(undefined) = "undefined"`. -/
def jsString : JSVal → String
  | JSVal.str s => s
  | JSVal.num n => toString n
  | JSVal.null => "null"
  | JSVal.undef => "undefined"

/-- JavaScript truthiness of a row value: `""`, `0`, `null` and `undefined`
are falsy. -/
def jsTruthy : JSVal → Bool
  | JSVal.str s => s != ""
  | JSVal.num n => n != 0
  | JSVal.null => false
  | JSVal.undef => false

/-- JavaScript `s.includes(pat)`: substring containment. -/
def strContains (s pat : String) : Bool :=
  (List.range (s.data.length + 1)).any fun i => pat.data.isPrefixOf (s.data.drop i)

/-- JavaScript `s.toLowerCase()` (character-wise lowering). -/
def jsToLower (s : String) : String :=
  ⟨s.data.map Char.toLower⟩

/-- JavaScript `s.trim()`: strips leading and trailing whitespace. -/
def jsTrim (s : String) : String :=
  ⟨((s.data.dropWhile Char.isWhitespace).reverse.dropWhile Char.isWhitespace).reverse⟩

/-- JavaScript `s.endsWith(suffix)`. -/
def strEndsWith (s suffix : String) : Bool :=
  suffix.data.isSuffixOf s.data

/-- Decimal value of a list of digit characters. -/
def digitsToNat (cs : List Char) : Nat :=
  cs.foldl (fun a c => a * 10 + (c.toNat - 48)) 0

/-- Splits a character list at each dash. -/
def splitDashAux : List Char → List Char → List (List Char)
  | [], acc => [acc.reverse]
  | c :: rest, acc =>
    if c = '-' then acc.reverse :: splitDashAux rest []
    else splitDashAux rest (c :: acc)

/-- The dash-separated pieces of a string, as `s.split("-")` yields them. -/
def splitDash (s : String) : List (List Char) :=
  splitDashAux s.data []

/-- A digits-only piece of a date string, as a number. -/
def parseDatePiece (cs : List Char) : Option Nat :=
  if cs ≠ [] ∧ cs.all Char.isDigit then some (digitsToNat cs) else none

/-- Days in a month of the proleptic Gregorian calendar, with the usual
leap-year rule (divisible by 4, except centuries not divisible by 400). -/
def daysInMonth (y m : Nat) : Nat :=
  if m = 2 then
    if (y % 4 = 0 ∧ y % 100 ≠ 0) ∨ y % 400 = 0 then 29 else 28
  else if m = 4 ∨ m = 6 ∨ m = 9 ∨ m = 11 then 30
  else 31

/-- `new Date(s)` for an ISO `YYYY-MM-DD` string: a calendar-valid date
(month 1..12 and day within that month's length, leap years included, as
the host's ISO parser enforces) is encoded as the order-preserving code
`y*10000 + m*100 + d` (lexicographic on year/month/day, exactly the order
of the corresponding timestamps); any other string — including a
calendar-invalid one such as "2021-02-30" — is an invalid date (`none`). -/
def parseISODate (s : String) : Option Nat :=
  match splitDash s with
  | [y, m, d] =>
    match parseDatePiece y, parseDatePiece m, parseDatePiece d with
    | some yn, some mn, some dn =>
      if y.length = 4 ∧ m.length = 2 ∧ d.length = 2 ∧
          1 ≤ mn ∧ mn ≤ 12 ∧ 1 ≤ dn ∧ dn ≤ daysInMonth yn mn then
        some (yn * 10000 + mn * 100 + dn)
      else none
    | _, _, _ => none
  | _ => none

/-- `new Date(v)` on a row value; only date strings are modelled (see the
module docstring). -/
def jsDate : JSVal → Option Nat
  | JSVal.str s => parseISODate s
  | _ => none

/-- JavaScript `Number(s)` for the strings the integer filter feeds it:
the empty (or all-whitespace) string is 0, an optionally signed integer
string is its value, anything else is NaN (`none`). -/
def jsStringToNumber (s : String) : Option Int :=
  let t := jsTrim s
  if t = "" then some 0
  else
    match t.data with
    | '-' :: rest =>
      if rest ≠ [] ∧ rest.all Char.isDigit then some (-(Int.ofNat (digitsToNat rest))) else none
    | '+' :: rest =>
      if rest ≠ [] ∧ rest.all Char.isDigit then some (Int.ofNat (digitsToNat rest)) else none
    | cs =>
      if cs.all Char.isDigit then some (Int.ofNat (digitsToNat cs)) else none

/-- JavaScript `Number(v)` on a row value: `Number(null) = 0`,
`Number(undefined) = NaN` (`none`). -/
def jsToNumber : JSVal → Option Int
  | JSVal.num n => some n
  | JSVal.null => some 0
  | JSVal.undef => none
  | JSVal.str s => jsStringToNumber s

/-- The declared value kind of a column (`type` on `TableColumn`). -/
inductive CType where
  | string
  | date
  | integer
  | html
deriving DecidableEq

/-- The filter UI kind of a column (`filterType` on `TableColumn`). -/
inductive FType where
  | search
  | dropdown
  | date
  | integer
deriving DecidableEq

/-- A column declaration, restricted to the fields the pipeline reads. -/
structure TableColumn where
  key : String
  type : Option CType := none
  filterType : Option FType := none
  width : Option String := none
deriving DecidableEq

/-- A stored per-column filter value: `string | string[]` in the source. -/
inductive FVal where
  | str (s : String)
  | arr (l : List String)
deriving DecidableEq

/-- One entry of the `FilterState` record. -/
structure FilterEntry where
  op : String
  value : FVal
  value2 : Option String := none
deriving DecidableEq

/-- Truthiness of `filter.value`: only the empty string is falsy (an array,
even an empty one, is truthy). -/
def fvalTruthy : FVal → Bool
  | FVal.str s => s != ""
  | FVal.arr _ => true

/-- `Number(filter.value)`: a plain string coerces directly; an array
coerces through its string form, so `[] = 0`, a singleton coerces like its
element, and a longer array is NaN. -/
def fvalToNumber : FVal → Option Int
  | FVal.str s => jsStringToNumber s
  | FVal.arr [] => some 0
  | FVal.arr [s] => jsStringToNumber s
  | FVal.arr _ => none

/-- `getDropdownFilterValue` from the source: normalizes a stored dropdown
filter value to the selected set; a falsy value (absent entry or empty
string) is the empty set, an array is used as is, a non-empty string is a
singleton. -/
def getDropdownFilterValue : Option FVal → List String
  | none => []
  | some (FVal.str s) => if s = "" then [] else [s]
  | some (FVal.arr l) => l

/-- The filter kind resolution used by the filter UI row: the explicit
`filterType` overrides the type-derived default (date type to the date
filter, integer type to the integer filter, anything else to search). -/
def resolveFilterKind (col : TableColumn) : FType :=
  match col.filterType with
  | some ft => ft
  | none =>
    match col.type with
    | some CType.date => FType.date
    | some CType.integer => FType.integer
    | _ => FType.search

/-- The global-search predicate on one row: some visible column's
stringified value, lower-cased, contains the lower-cased search text. -/
def rowPassesSearch (visible : List String) (search : String) (row : Row) : Bool :=
  visible.any fun key => strContains (jsToLower (jsString (rowGet row key))) (jsToLower search)

/-- The global-search stage of `filteredData`: active only when the trimmed
search text is non-empty, but matching uses the untrimmed text. -/
def globalSearch (visible : List String) (search : String) (rows : List Row) : List Row :=
  if jsTrim search = "" then rows else rows.filter (rowPassesSearch visible search)

/-- `row[col.key] ? new Date(row[col.key]) : null` from the date branch. -/
def rowDate (key : String) (row : Row) : Option Nat :=
  if jsTruthy (rowGet row key) then jsDate (rowGet row key) else none

/-- One iteration of the per-column filter loop of `filteredData`, for a
column whose filter entry is present and truthy.  The branch order follows
the source: the declared `type` (date, then integer) is examined before the
explicit `filterType` (dropdown), and everything else falls to the text
"contains" filter. -/
def applyColFilter (col : TableColumn) (f : FilterEntry) (rows : List Row) : List Row :=
  if col.type = some CType.date then
    if f.op = "range" then
      match f.value, f.value2 with
      | FVal.str v1, some v2 =>
        if v1 ≠ "" ∧ v2 ≠ "" then
          rows.filter fun row =>
            match rowDate col.key row, parseISODate v1, parseISODate v2 with
            | some d, some lo, some hi => decide (lo ≤ d) && decide (d ≤ hi)
            | _, _, _ => false
        else rows
      | _, _ => rows
    else if f.op = "before" then
      match f.value with
      | FVal.str v1 =>
        if v1 ≠ "" then
          rows.filter fun row =>
            match rowDate col.key row, parseISODate v1 with
            | some d, some b => decide (d < b)
            | _, _ => false
        else rows
      | _ => rows
    else if f.op = "after" then
      match f.value with
      | FVal.str v1 =>
        if v1 ≠ "" then
          rows.filter fun row =>
            match rowDate col.key row, parseISODate v1 with
            | some d, some b => decide (b < d)
            | _, _ => false
        else rows
      | _ => rows
    else rows
  else if col.type = some CType.integer then
    if f.op = "=" ∧ fvalTruthy f.value then
      rows.filter fun row =>
        match jsToNumber (rowGet row col.key), fvalToNumber f.value with
        | some a, some b => a == b
        | _, _ => false
    else if f.op = "<" ∧ fvalTruthy f.value then
      rows.filter fun row =>
        match jsToNumber (rowGet row col.key), fvalToNumber f.value with
        | some a, some b => decide (a < b)
        | _, _ => false
    else if f.op = ">" ∧ fvalTruthy f.value then
      rows.filter fun row =>
        match jsToNumber (rowGet row col.key), fvalToNumber f.value with
        | some a, some b => decide (b < a)
        | _, _ => false
    else rows
  else if col.filterType = some FType.dropdown then
    let selected := getDropdownFilterValue (some f.value)
    if selected.length > 0 then
      rows.filter fun row => selected.contains (jsString (rowGet row col.key))
    else rows
  else
    match f.value with
    | FVal.str s =>
      rows.filter fun row =>
        strContains (jsToLower (jsString (rowGet row col.key))) (jsToLower s)
    | FVal.arr _ => rows

/-- The per-column filter loop of `filteredData`: each declared column is
visited in declaration order; a column with no entry, or an entry whose
value is falsy, is skipped. -/
def applyFilters (columns : List TableColumn) (filters : List (String × FilterEntry))
    (rows : List Row) : List Row :=
  columns.foldl
    (fun acc col =>
      match filters.lookup col.key with
      | none => acc
      | some f => if fvalTruthy f.value then applyColFilter col f acc else acc)
    rows

/-- `filteredData`: the global search stage followed by the per-column
filter loop. -/
def filteredData (data : List Row) (search : String) (visible : List String)
    (columns : List TableColumn) (filters : List (String × FilterEntry)) : List Row :=
  applyFilters columns filters (globalSearch visible search data)

/-- Sort direction. -/
inductive SortDir where
  | asc
  | desc
deriving DecidableEq

/-- The active sort: a column key and a direction. -/
structure SortSpec where
  key : String
  direction : SortDir
deriving DecidableEq

/-- JavaScript `v == null`: true exactly for `null` and `undefined`. -/
def isNullish : JSVal → Bool
  | JSVal.null => true
  | JSVal.undef => true
  | _ => false

/-- `localeCompare`, modelled as code-point comparison returning -1/0/1. -/
def localeCmp (a b : String) : Int :=
  match compare a b with
  | Ordering.lt => -1
  | Ordering.eq => 0
  | Ordering.gt => 1

/-- The sort comparator of `sortedData`: a nullish left value sorts after
anything (checked first, before the direction is consulted), a nullish
right value before anything; two numbers compare numerically; otherwise the
string forms are compared; `desc` swaps only the non-null comparison. -/
def sortCmp (srt : SortSpec) (a b : Row) : Int :=
  let aValue := rowGet a srt.key
  let bValue := rowGet b srt.key
  if isNullish aValue then 1
  else if isNullish bValue then -1
  else
    match aValue, bValue with
    | JSVal.num x, JSVal.num y =>
      match srt.direction with
      | SortDir.asc => x - y
      | SortDir.desc => y - x
    | _, _ =>
      match srt.direction with
      | SortDir.asc => localeCmp (jsString aValue) (jsString bValue)
      | SortDir.desc => localeCmp (jsString bValue) (jsString aValue)

/-- The non-strict order induced by the comparator, as a stable sort uses
it: `a` may stay before `b` iff the comparator is non-positive. -/
def sortLE (srt : SortSpec) (a b : Row) : Prop := sortCmp srt a b ≤ 0

instance sortLEDec (srt : SortSpec) : DecidableRel (sortLE srt) :=
  fun _ _ => Int.decLe _ _

/-- `sortedData`: the identity when no sort is active, otherwise a stable
sort of the rows by the comparator (the host sort is stable per
ECMAScript 2019; modelled as insertion sort). -/
def sortedData (srt : Option SortSpec) (rows : List Row) : List Row :=
  match srt with
  | none => rows
  | some s => rows.insertionSort (sortLE s)

/-- `pageCount = Math.max(1, Math.ceil(len / rowsPerPage))` (for a positive
page size, `Math.ceil` on naturals is `(len + size - 1) / size`). -/
def pageCount (totalRows pageSize : Nat) : Nat :=
  max 1 ((totalRows + pageSize - 1) / pageSize)

/-- `sortedData.slice((page - 1) * rowsPerPage, page * rowsPerPage)`: pages
are numbered from 1, so both slice indices are non-negative and the slice
is a drop followed by a take of one page size. -/
def pagedData {α : Type} (rows : List α) (pageSize page : Nat) : List α :=
  (rows.drop ((page - 1) * pageSize)).take pageSize

/-- JavaScript `parseInt(s)` (radix 10): leading whitespace and an optional
sign, then the longest digit prefix; NaN (`none`) when no digits follow. -/
def parseIntJS (s : String) : Option Int :=
  let cs := s.data.dropWhile Char.isWhitespace
  match cs with
  | '-' :: rest =>
    let ds := rest.takeWhile Char.isDigit
    if ds.isEmpty then none else some (-(Int.ofNat (digitsToNat ds)))
  | '+' :: rest =>
    let ds := rest.takeWhile Char.isDigit
    if ds.isEmpty then none else some (Int.ofNat (digitsToNat ds))
  | rest =>
    let ds := rest.takeWhile Char.isDigit
    if ds.isEmpty then none else some (Int.ofNat (digitsToNat ds))

/-- The width resolution inside `getStickyLeft`: a truthy width ending in
"px" is `parseInt` of the string (NaN, i.e. `none`, when it has no leading
integer), a truthy width ending in "%" is the 120 fallback, and anything
else keeps the 120 default. -/
def widthResolve (w : Option String) : Option Int :=
  match w with
  | none => some 120
  | some s =>
    if s ≠ "" ∧ strEndsWith s "px" then parseIntJS s
    else if s ≠ "" ∧ strEndsWith s "%" then some 120
    else some 120

/-- One step of the `getStickyLeft` accumulation; NaN (`none`) propagates,
as `left += NaN` does. -/
def stickyStep (acc : Option Int) (col : TableColumn) : Option Int :=
  match acc, widthResolve col.width with
  | some a, some w => some (a + w)
  | _, _ => none

/-- `getStickyLeft(cols, idx)`: the sum of the resolved widths of the
displayed columns before position `idx`. -/
def getStickyLeft (cols : List TableColumn) (idx : Nat) : Option Int :=
  (cols.take idx).foldl stickyStep (some 0)

/-- The state of the MultiSelectDropdown popover controller: the open flag
and the selected set. -/
structure PopoverState where
  isOpen : Bool
  value : List String
deriving DecidableEq

/-- The document-level mousedown listener (registered only while open): a
pointer-down inside the trigger or the menu is ignored, anything else
closes the popover. -/
def popoverMousedown (st : PopoverState) (inTrigger inMenu : Bool) : PopoverState :=
  if st.isOpen then
    if inTrigger || inMenu then st else { st with isOpen := false }
  else st

/-- The document-level keydown listener (registered only while open):
Escape closes the popover. -/
def popoverKeydown (st : PopoverState) (key : String) : PopoverState :=
  if st.isOpen ∧ key = "Escape" then { st with isOpen := false } else st

/-- `handleSelect`: toggles one option in the selected set and does not
touch the open flag. -/
def handleSelect (st : PopoverState) (opt : String) : PopoverState :=
  if st.value.contains opt then
    { st with value := st.value.filter fun v => v != opt }
  else
    { st with value := st.value ++ [opt] }

/-- `handleSelectAll`: empties the selected set when all options are
selected (and the option list is non-empty), otherwise selects every
option; the open flag is untouched. -/
def handleSelectAll (st : PopoverState) (options : List String) : PopoverState :=
  if st.value.length = options.length ∧ options.length > 0 then
    { st with value := [] }
  else
    { st with value := options }

/-- With the empty search text the global-search stage is the identity. -/
theorem globalSearch_empty (visible : List String) (rows : List Row) :
    globalSearch visible "" rows = rows := by
  unfold globalSearch
  rw [if_pos (by decide : jsTrim "" = "")]

/-- With no filter entries the per-column loop is the identity. -/
theorem applyFilters_nil (columns : List TableColumn) (rows : List Row) :
    applyFilters columns [] rows = rows := by
  induction columns generalizing rows with
  | nil => rfl
  | cons c cs ih => exact ih rows

/-- A pipeline with one column carrying one truthy filter entry reduces to
that column's filter clause. -/
theorem filteredData_single (k : String) (ct : Option CType) (ft : Option FType)
    (ws : Option String) (f : FilterEntry) (hf : fvalTruthy f.value = true) (rows : List Row) :
    filteredData rows "" [] [{ key := k, type := ct, filterType := ft, width := ws }] [(k, f)] =
      applyColFilter { key := k, type := ct, filterType := ft, width := ws } f rows := by
  unfold filteredData applyFilters
  rw [globalSearch_empty]
  simp [List.foldl_cons, List.lookup, hf]

/-- Claim C1 (code bug): the Filter Engine dispatches on the declared
`type` before the explicit `filterType`, so for a date-typed column with a
dropdown `filterType` and a non-empty selected set the stored `in` entry
matches no date operator and no filtering happens at all: both rows
survive, although the selected set excludes the second row's value. -/
theorem typed_dropdown_filter_ignored :
    resolveFilterKind
        { key := "d", type := some CType.date, filterType := some FType.dropdown }
      = FType.dropdown
    ∧ filteredData
        [[("d", JSVal.str "2020-01-01")], [("d", JSVal.str "2021-05-05")]]
        "" []
        [{ key := "d", type := some CType.date, filterType := some FType.dropdown }]
        [("d", { op := "in", value := FVal.arr ["2020-01-01"] })]
      = [[("d", JSVal.str "2020-01-01")], [("d", JSVal.str "2021-05-05")]]
    ∧ (getDropdownFilterValue (some (FVal.arr ["2020-01-01"]))).contains
        (jsString (rowGet [("d", JSVal.str "2021-05-05")] "d")) = false := by
  exact ⟨rfl, by decide, by decide⟩

/-- Claim C2 (counterexample): with search text " a" the trimmed text "a"
is contained in the visible value "abc", so the claim predicts the row
passes, but the code matches against the untrimmed text and drops it. -/
theorem search_untrimmed_counterexample :
    filteredData [[("x", JSVal.str "abc")]] " a" ["x"] [] [] = []
    ∧ strContains (jsToLower (jsString (JSVal.str "abc"))) (jsToLower (jsTrim " a")) = true := by
  exact ⟨by decide, by decide⟩

/-- Claim C2 (amended): for a search text whose trimmed form is non-empty,
a row passes the global search iff at least one visible column's
stringified value, lower-cased, contains the lower-cased untrimmed search
text as a substring; a search text whose trimmed form is empty (in
particular an all-whitespace one) applies no filtering at all: the trim
only decides whether the search is active. -/
theorem global_search_untrimmed (data : List Row) (columns : List TableColumn)
    (visible : List String) (search : String) (row : Row) :
    (jsTrim search ≠ "" →
      (row ∈ filteredData data search visible columns [] ↔
        row ∈ data ∧
          (visible.any fun key =>
            strContains (jsToLower (jsString (rowGet row key)))
              (jsToLower search)) = true))
    ∧ (jsTrim search = "" →
      filteredData data search visible columns [] = data) := by
  constructor
  · intro h
    unfold filteredData
    rw [applyFilters_nil]
    unfold globalSearch
    rw [if_neg h, List.mem_filter]
    exact Iff.rfl
  · intro h
    unfold filteredData
    rw [applyFilters_nil]
    unfold globalSearch
    rw [if_pos h]

theorem global_search_untrimmed_witness :
    ([("x", JSVal.str "a b")] ∈
        filteredData [[("x", JSVal.str "a b")]] " b" ["x"] [] [] ↔
      [("x", JSVal.str "a b")] ∈ [[("x", JSVal.str "a b")]] ∧
        ((["x"] : List String).any fun key =>
          strContains (jsToLower (jsString (rowGet [("x", JSVal.str "a b")] key)))
            (jsToLower " b")) = true)
    ∧ filteredData [[("x", JSVal.str "a b")]] "   " ["x"] [] []
        = [[("x", JSVal.str "a b")]] :=
  ⟨(global_search_untrimmed [[("x", JSVal.str "a b")]] [] ["x"] " b"
      [("x", JSVal.str "a b")]).1 (by decide),
   (global_search_untrimmed [[("x", JSVal.str "a b")]] [] ["x"] "   "
      [("x", JSVal.str "a b")]).2 (by decide)⟩

/-- Claim C10: `getDropdownFilterValue` normalizes the stored dropdown
value: absent and empty-string values give the empty set, a non-empty
string a singleton set, an array is used as is; and an empty selected set
makes the dropdown clause a no-op. -/
theorem dropdown_value_normalized :
    getDropdownFilterValue none = []
    ∧ getDropdownFilterValue (some (FVal.str "")) = []
    ∧ (∀ s : String, s ≠ "" → getDropdownFilterValue (some (FVal.str s)) = [s])
    ∧ (∀ l : List String, getDropdownFilterValue (some (FVal.arr l)) = l)
    ∧ (∀ (col : TableColumn) (f : FilterEntry) (rows : List Row),
        col.type ≠ some CType.date → col.type ≠ some CType.integer →
        col.filterType = some FType.dropdown →
        getDropdownFilterValue (some f.value) = [] →
        applyColFilter col f rows = rows) := by
  refine ⟨rfl, rfl, ?_, ?_, ?_⟩
  · intro s hs; simp [getDropdownFilterValue, hs]
  · intro l; rfl
  · intro col f rows hd hi hft hsel
    unfold applyColFilter
    rw [if_neg hd, if_neg hi, if_pos hft]
    simp [hsel]

theorem dropdown_value_normalized_witness :
    getDropdownFilterValue (some (FVal.str "admin")) = ["admin"]
    ∧ applyColFilter { key := "role", filterType := some FType.dropdown }
        { op := "in", value := FVal.arr [] } [[("role", JSVal.str "x")]]
      = [[("role", JSVal.str "x")]] :=
  ⟨dropdown_value_normalized.2.2.1 "admin" (by decide),
   dropdown_value_normalized.2.2.2.2 _ _ _ (by decide) (by decide) rfl rfl⟩

/-- A pipeline with one column whose single filter entry is falsy skips the
clause entirely. -/
theorem filteredData_single_falsy (k : String) (ct : Option CType) (ft : Option FType)
    (ws : Option String) (f : FilterEntry) (hf : fvalTruthy f.value = false) (rows : List Row) :
    filteredData rows "" [] [{ key := k, type := ct, filterType := ft, width := ws }] [(k, f)]
      = rows := by
  unfold filteredData applyFilters
  rw [globalSearch_empty]
  simp [List.foldl_cons, List.lookup, hf]

/-- Claim C3 (counterexample): a row with no "name" field survives the
active text filter "undef", because the missing field stringifies to
"undefined", which contains "undef"; the claim says it must be excluded. -/
theorem missing_field_counterexample :
    rowGet ([] : Row) "name" = JSVal.undef
    ∧ filteredData [([] : Row)] "" [] [{ key := "name" }]
        [("name", { op := "contains", value := FVal.str "undef" })] = [([] : Row)] := by
  exact ⟨rfl, by decide⟩

/-- Claim C3 (amended): a row whose field at the filtered column is
missing/undefined always fails an active date or integer filter clause; for
the text and dropdown clauses the missing value is stringified to
"undefined", so the row passes iff the lower-cased filter text is a
substring of "undefined" (text), resp. the selected set contains the string
"undefined" (dropdown), and is excluded otherwise. -/
theorem missing_field_filter_behavior (k : String) (row : Row) (rows : List Row)
    (hmiss : rowGet row k = JSVal.undef) :
    (∀ v1 v2 : String, v1 ≠ "" → v2 ≠ "" →
      row ∉ filteredData rows "" [] [{ key := k, type := some CType.date }]
        [(k, { op := "range", value := FVal.str v1, value2 := some v2 })])
    ∧ (∀ op v1 : String, (op = "before" ∨ op = "after") → v1 ≠ "" →
      row ∉ filteredData rows "" [] [{ key := k, type := some CType.date }]
        [(k, { op := op, value := FVal.str v1 })])
    ∧ (∀ op v : String, (op = "=" ∨ op = "<" ∨ op = ">") → v ≠ "" →
      row ∉ filteredData rows "" [] [{ key := k, type := some CType.integer }]
        [(k, { op := op, value := FVal.str v })])
    ∧ (∀ s : String, s ≠ "" →
      (row ∈ filteredData rows "" [] [{ key := k }]
          [(k, { op := "contains", value := FVal.str s })] ↔
        row ∈ rows ∧ strContains "undefined" (jsToLower s) = true))
    ∧ (∀ sel : List String, sel ≠ [] →
      (row ∈ filteredData rows "" [] [{ key := k, filterType := some FType.dropdown }]
          [(k, { op := "in", value := FVal.arr sel })] ↔
        row ∈ rows ∧ sel.contains "undefined" = true)) := by
  have hrd : rowDate k row = none := by
    unfold rowDate
    rw [hmiss]
    rfl
  refine ⟨?_, ?_, ?_, ?_, ?_⟩
  · intro v1 v2 hv1 hv2
    rw [filteredData_single k _ _ _ _ (by simp [fvalTruthy, hv1])]
    simp [applyColFilter, hv1, hv2, hrd, List.mem_filter]
  · intro op v1 hop hv1
    rw [filteredData_single k _ _ _ _ (by simp [fvalTruthy, hv1])]
    rcases hop with h | h <;> subst h <;>
      simp [applyColFilter, hv1, hrd, List.mem_filter]
  · intro op v hop hv
    rw [filteredData_single k _ _ _ _ (by simp [fvalTruthy, hv])]
    have hnum : jsToNumber (rowGet row k) = none := by rw [hmiss]; rfl
    rcases hop with h | h | h <;> subst h <;>
      simp [applyColFilter, hv, hnum, List.mem_filter, fvalTruthy]
  · intro s hs
    rw [filteredData_single k _ _ _ _ (by simp [fvalTruthy, hs])]
    have hu : jsToLower (jsString (rowGet row k)) = "undefined" := by rw [hmiss]; decide
    simp [applyColFilter, List.mem_filter, hu]
  · intro sel hsel
    rw [filteredData_single k _ _ _ _ (by simp [fvalTruthy])]
    have hu : jsString (rowGet row k) = "undefined" := by rw [hmiss]; rfl
    simp [applyColFilter, getDropdownFilterValue, List.length_pos.mpr hsel,
      List.mem_filter, hu]

theorem missing_field_filter_behavior_witness :
    rowGet ([] : Row) "k" = JSVal.undef
    ∧ ([] : Row) ∉ filteredData [([] : Row)] "" [] [{ key := "k", type := some CType.date }]
        [("k", { op := "range", value := FVal.str "2020-01-01", value2 := some "2021-01-01" })]
    ∧ ([] : Row) ∉ filteredData [([] : Row)] "" [] [{ key := "k", type := some CType.integer }]
        [("k", { op := "=", value := FVal.str "5" })]
    ∧ (([] : Row) ∈ filteredData [([] : Row)] "" [] [{ key := "k" }]
          [("k", { op := "contains", value := FVal.str "undef" })] ↔
        ([] : Row) ∈ [([] : Row)] ∧ strContains "undefined" (jsToLower "undef") = true)
    ∧ (([] : Row) ∈ filteredData [([] : Row)] "" []
          [{ key := "k", filterType := some FType.dropdown }]
          [("k", { op := "in", value := FVal.arr ["undefined"] })] ↔
        ([] : Row) ∈ [([] : Row)] ∧ (["undefined"].contains "undefined") = true) :=
  ⟨rfl,
   (missing_field_filter_behavior "k" [] [[]] rfl).1 _ _ (by decide) (by decide),
   (missing_field_filter_behavior "k" [] [[]] rfl).2.2.1 "=" _ (Or.inl rfl) (by decide),
   (missing_field_filter_behavior "k" [] [[]] rfl).2.2.2.1 _ (by decide),
   (missing_field_filter_behavior "k" [] [[]] rfl).2.2.2.2 _ (by decide)⟩

/-- Claim C4: the date filter tests `value <= d <= value2` inclusively for
`range` (both bounds set), strict `d < value` for `before`, strict
`d > value` for `after`, and a missing required bound (a `range` with only
one bound, or an empty bound string) makes the clause a no-op that filters
out no rows at all. -/
theorem date_filter_semantics (k : String) (rows : List Row) (v1 v2 : String)
    (lo hi : Nat) (h1 : parseISODate v1 = some lo) (h2 : parseISODate v2 = some hi) :
    (∀ (row : Row) (s : String) (d : Nat), rowGet row k = JSVal.str s →
      parseISODate s = some d →
      (row ∈ filteredData rows "" [] [{ key := k, type := some CType.date }]
          [(k, { op := "range", value := FVal.str v1, value2 := some v2 })] ↔
        row ∈ rows ∧ lo ≤ d ∧ d ≤ hi))
    ∧ (∀ (row : Row) (s : String) (d : Nat), rowGet row k = JSVal.str s →
      parseISODate s = some d →
      (row ∈ filteredData rows "" [] [{ key := k, type := some CType.date }]
          [(k, { op := "before", value := FVal.str v1 })] ↔
        row ∈ rows ∧ d < lo))
    ∧ (∀ (row : Row) (s : String) (d : Nat), rowGet row k = JSVal.str s →
      parseISODate s = some d →
      (row ∈ filteredData rows "" [] [{ key := k, type := some CType.date }]
          [(k, { op := "after", value := FVal.str v1 })] ↔
        row ∈ rows ∧ lo < d))
    ∧ filteredData rows "" [] [{ key := k, type := some CType.date }]
        [(k, { op := "range", value := FVal.str v1 })] = rows
    ∧ filteredData rows "" [] [{ key := k, type := some CType.date }]
        [(k, { op := "range", value := FVal.str v1, value2 := some "" })] = rows
    ∧ filteredData rows "" [] [{ key := k, type := some CType.date }]
        [(k, { op := "before", value := FVal.str "" })] = rows := by
  have hne1 : v1 ≠ "" := by
    intro hv
    rw [hv, (by decide : parseISODate "" = none)] at h1
    exact Option.noConfusion h1
  have hrowDate : ∀ (row : Row) (s : String) (d : Nat), rowGet row k = JSVal.str s →
      parseISODate s = some d → rowDate k row = some d := by
    intro row s d hrow hd
    have hs : s ≠ "" := by
      intro hv
      rw [hv, (by decide : parseISODate "" = none)] at hd
      exact Option.noConfusion hd
    unfold rowDate
    rw [hrow]
    simp [jsTruthy, hs, jsDate, hd]
  have hne2 : v2 ≠ "" := by
    intro hv
    rw [hv, (by decide : parseISODate "" = none)] at h2
    exact Option.noConfusion h2
  refine ⟨?_, ?_, ?_, ?_, ?_, ?_⟩
  · intro row s d hrow hd
    rw [filteredData_single k _ _ _ _ (by simp [fvalTruthy, hne1])]
    simp [applyColFilter, hne1, hne2, hrowDate row s d hrow hd, h1, h2,
      List.mem_filter, and_assoc]
  · intro row s d hrow hd
    rw [filteredData_single k _ _ _ _ (by simp [fvalTruthy, hne1])]
    simp [applyColFilter, hne1, hrowDate row s d hrow hd, h1, List.mem_filter]
  · intro row s d hrow hd
    rw [filteredData_single k _ _ _ _ (by simp [fvalTruthy, hne1])]
    simp [applyColFilter, hne1, hrowDate row s d hrow hd, h1, List.mem_filter]
  · rw [filteredData_single k _ _ _ _ (by simp [fvalTruthy, hne1])]
    simp [applyColFilter]
  · rw [filteredData_single k _ _ _ _ (by simp [fvalTruthy, hne1])]
    simp [applyColFilter]
  · exact filteredData_single_falsy k _ _ _ _ (by simp [fvalTruthy]) rows

theorem date_filter_semantics_witness :
    parseISODate "2020-01-01" = some 20200101
    ∧ ([("d", JSVal.str "2020-06-15")] ∈
          filteredData [[("d", JSVal.str "2020-06-15")]] "" []
            [{ key := "d", type := some CType.date }]
            [("d", { op := "range", value := FVal.str "2020-01-01",
                     value2 := some "2021-01-01" })] ↔
        [("d", JSVal.str "2020-06-15")] ∈ [[("d", JSVal.str "2020-06-15")]] ∧
          20200101 ≤ 20200615 ∧ 20200615 ≤ 20210101) :=
  ⟨by decide,
   (date_filter_semantics "d" _ "2020-01-01" "2021-01-01" 20200101 20210101
      (by decide) (by decide)).1 _ "2020-06-15" 20200615 (by decide) (by decide)⟩

/-- The concatenation of pages 1..n is the first `n * pageSize` rows. -/
theorem pagedData_join_take {α : Type} (rows : List α) (pageSize : Nat) (n : Nat) :
    ((List.range' 1 n).map fun p => pagedData rows pageSize p).flatten
      = rows.take (n * pageSize) := by
  induction n with
  | zero => simp
  | succ m ih =>
    rw [List.range'_concat, List.map_append, List.flatten_append, ih]
    simp only [List.map_cons, List.map_nil, List.flatten_cons, List.flatten_nil, List.append_nil]
    unfold pagedData
    have hidx : 1 + 1 * m - 1 = m := by omega
    rw [hidx, Nat.succ_mul, List.take_add]

/-- Claim C5: for a positive page size, concatenating the paginator's pages
1..pageCount reproduces exactly the input sequence (no duplicates or
omissions), and every page number greater than pageCount yields an empty
page rather than an error. -/
theorem pagination_coverage {α : Type} (rows : List α) (pageSize : Nat)
    (h : 0 < pageSize) :
    ((List.range' 1 (pageCount rows.length pageSize)).map fun p =>
        pagedData rows pageSize p).flatten = rows
    ∧ ∀ p : Nat, pageCount rows.length pageSize < p → pagedData rows pageSize p = [] := by
  have hceil : rows.length ≤ ((rows.length + pageSize - 1) / pageSize) * pageSize := by
    have hd := Nat.div_add_mod (rows.length + pageSize - 1) pageSize
    have hm : (rows.length + pageSize - 1) % pageSize < pageSize := Nat.mod_lt _ h
    rw [Nat.mul_comm]
    omega
  have hlen : rows.length ≤ pageCount rows.length pageSize * pageSize := by
    refine le_trans hceil ?_
    exact Nat.mul_le_mul_right _ (le_max_right _ _)
  constructor
  · rw [pagedData_join_take]
    exact List.take_of_length_le hlen
  · intro p hp
    unfold pagedData
    have h2 : rows.length ≤ (p - 1) * pageSize := by
      refine le_trans hlen (Nat.mul_le_mul_right _ ?_)
      omega
    rw [List.drop_eq_nil_of_le h2]
    exact List.take_nil

theorem pagination_coverage_witness :
    (0 : Nat) < 2
    ∧ ((List.range' 1 (pageCount ([10, 20, 30] : List Nat).length 2)).map fun p =>
        pagedData [10, 20, 30] 2 p).flatten = [10, 20, 30]
    ∧ pagedData ([10, 20, 30] : List Nat) 2 5 = [] :=
  ⟨by decide, (pagination_coverage [10, 20, 30] 2 (by decide)).1,
   (pagination_coverage [10, 20, 30] 2 (by decide)).2 5 (by decide)⟩

/-- With every width resolving, the sticky fold is the running sum. -/
theorem stickyFold_sum (l : List TableColumn) (a : Int)
    (h : ∀ c ∈ l, widthResolve c.width ≠ none) :
    l.foldl stickyStep (some a)
      = some (a + (l.map fun c => (widthResolve c.width).getD 0).sum) := by
  induction l generalizing a with
  | nil => simp
  | cons c cs ih =>
    have hc : widthResolve c.width ≠ none := h c (List.mem_cons_self c cs)
    obtain ⟨w, hw⟩ := Option.ne_none_iff_exists'.mp hc
    rw [List.foldl_cons]
    have hstep : stickyStep (some a) c = some (a + w) := by simp [stickyStep, hw]
    rw [hstep, ih (a + w) fun x hx => h x (List.mem_cons_of_mem _ hx)]
    simp [hw, add_assoc]

/-- Claim C6 (counterexample): JavaScript `parseInt` accepts a sign, so the
pixel width "-5px" resolves to -5 and the offset at position 1 is smaller
than the offset at position 0: offsets are not monotonically
non-decreasing as claimed. -/
theorem sticky_offset_counterexample :
    getStickyLeft [{ key := "a", width := some "-5px" }, { key := "b" }] 1 = some (-5)
    ∧ getStickyLeft [{ key := "a", width := some "-5px" }, { key := "b" }] 0 = some 0
    ∧ ¬((0 : Int) ≤ -5) := by
  exact ⟨by decide, rfl, by decide⟩

/-- Claim C6 (amended): when every width resolves (every pixel width has a
parsable integer), the sticky left offset at position i is the sum of the
resolved widths of the columns before i (pixel widths parse as written,
percentage or absent widths fall back to 120); consecutive offsets differ
by exactly the resolved width of the column in between; and the offsets
are monotonically non-decreasing provided every resolved width is
nonnegative (which a signed pixel width such as "-5px" violates). -/
theorem sticky_left_offsets (cols : List TableColumn)
    (h : ∀ c ∈ cols, widthResolve c.width ≠ none) :
    (∀ i : Nat, getStickyLeft cols i
        = some (((cols.take i).map fun c => (widthResolve c.width).getD 0).sum))
    ∧ (∀ (i : Nat) (c : TableColumn), cols[i]? = some c →
        ∀ a b : Int, getStickyLeft cols i = some a → getStickyLeft cols (i + 1) = some b →
          b - a = (widthResolve c.width).getD 0)
    ∧ ((∀ c ∈ cols, ∀ w : Int, widthResolve c.width = some w → 0 ≤ w) →
        ∀ i j : Nat, i ≤ j →
          ∀ a b : Int, getStickyLeft cols i = some a → getStickyLeft cols j = some b →
            a ≤ b) := by
  have hsum : ∀ i : Nat, getStickyLeft cols i
      = some (((cols.take i).map fun c => (widthResolve c.width).getD 0).sum) := by
    intro i
    unfold getStickyLeft
    rw [stickyFold_sum _ 0 fun c hc => h c (List.mem_of_mem_take hc)]
    simp
  refine ⟨hsum, ?_, ?_⟩
  · intro i c hc a b ha hb
    rw [hsum i] at ha
    rw [hsum (i + 1), List.take_succ, hc] at hb
    simp only [Option.toList_some, List.map_append, List.sum_append, List.map_cons,
      List.map_nil, List.sum_cons, List.sum_nil] at hb
    have ha2 := Option.some.inj ha
    have hb2 := Option.some.inj hb
    omega
  · intro hnn i j hij a b ha hb
    rw [hsum i] at ha
    rw [hsum j] at hb
    have hj : j = i + (j - i) := by omega
    rw [hj, List.take_add, List.map_append, List.sum_append] at hb
    have htail : 0 ≤ (((cols.drop i).take (j - i)).map
        fun c => (widthResolve c.width).getD 0).sum := by
      refine List.sum_nonneg ?_
      intro x hx
      obtain ⟨c, hcmem, hcx⟩ := List.mem_map.mp hx
      have hcin : c ∈ cols := List.mem_of_mem_drop (List.mem_of_mem_take hcmem)
      obtain ⟨w, hw⟩ := Option.ne_none_iff_exists'.mp (h c hcin)
      have hw0 := hnn c hcin w hw
      rw [← hcx, hw]
      simpa using hw0
    have ha2 := Option.some.inj ha
    have hb2 := Option.some.inj hb
    omega

theorem sticky_left_offsets_witness :
    getStickyLeft [{ key := "a", width := some "100px" },
        { key := "b", width := some "50%" }, { key := "c" }] 2 = some 220
    ∧ (0 : Int) ≤ 220 :=
  ⟨((sticky_left_offsets _ (by decide)).1 2).trans (by decide),
   (sticky_left_offsets [{ key := "a", width := some "100px" },
        { key := "b", width := some "50%" }, { key := "c" }] (by decide)).2.2
     (by decide) 0 2 (by decide) 0 220 rfl
     (((sticky_left_offsets _ (by decide)).1 2).trans (by decide))⟩

open scoped List

/-- `orderedInsert` only inserts: any sublist of the input is a sublist of
the result. -/
theorem sublist_orderedInsert_mono {α : Type} (r : α → α → Prop) [DecidableRel r] (x : α)
    {l1 l2 : List α} (h : l1 <+ l2) : l1 <+ l2.orderedInsert r x := by
  induction h with
  | slnil => simp [List.orderedInsert]
  | cons a h2 ih =>
    rw [List.orderedInsert]
    by_cases hr : r x a
    · rw [if_pos hr]
      exact (h2.cons a).cons x
    · rw [if_neg hr]
      exact ih.cons a
  | cons₂ a h2 ih =>
    rw [List.orderedInsert]
    by_cases hr : r x a
    · rw [if_pos hr]
      exact (h2.cons₂ a).cons x
    · rw [if_neg hr]
      exact ih.cons₂ a

/-- Inserting `a` with `r a b` lands no later than any occurrence of `b`. -/
theorem orderedInsert_pair {α : Type} (r : α → α → Prop) [DecidableRel r] {a b : α}
    (hab : r a b) : ∀ {s : List α}, b ∈ s → [a, b] <+ s.orderedInsert r a := by
  intro s hb
  induction s with
  | nil => cases hb
  | cons y t ih =>
    rw [List.orderedInsert]
    by_cases hr : r a y
    · rw [if_pos hr]
      exact (List.singleton_sublist.mpr hb).cons₂ a
    · rw [if_neg hr]
      have hby : b ≠ y := fun he => hr (he ▸ hab)
      have hbt : b ∈ t := by
        rcases List.mem_cons.mp hb with he | he
        · exact absurd he hby
        · exact he
      exact (ih hbt).cons y

/-- Insertion sort keeps the relative order of a pair the order ties. -/
theorem insertionSort_pair_stable {α : Type} (r : α → α → Prop) [DecidableRel r] {a b : α}
    (hab : r a b) : ∀ {l : List α}, [a, b] <+ l → [a, b] <+ l.insertionSort r := by
  intro l h
  induction l with
  | nil => exact absurd (List.sublist_nil.mp h) (by simp)
  | cons x t ih =>
    rw [List.insertionSort]
    cases h with
    | cons _ h2 => exact sublist_orderedInsert_mono r x (ih h2)
    | cons₂ _ h2 =>
      have hbmem : b ∈ t.insertionSort r :=
        (List.mem_insertionSort r).mpr (List.singleton_sublist.mp h2)
      exact orderedInsert_pair r hab hbmem

/-- Claim C7: the sort is stable: two rows the comparator ties keep the
relative order they had in the input sequence. -/
theorem sort_stable (srt : SortSpec) (l : List Row) (a b : Row)
    (h : sortCmp srt a b = 0) (hsub : [a, b] <+ l) :
    [a, b] <+ sortedData (some srt) l := by
  have hab : sortLE srt a b := by unfold sortLE; omega
  exact insertionSort_pair_stable (sortLE srt) hab hsub

theorem sort_stable_witness :
    sortCmp { key := "k", direction := SortDir.asc }
        [("k", JSVal.str "x"), ("id", JSVal.num 1)]
        [("k", JSVal.str "x"), ("id", JSVal.num 2)] = 0
    ∧ [[("k", JSVal.str "x"), ("id", JSVal.num 1)], [("k", JSVal.str "x"), ("id", JSVal.num 2)]]
        <+ sortedData (some { key := "k", direction := SortDir.asc })
          [[("k", JSVal.str "x"), ("id", JSVal.num 1)],
           [("k", JSVal.str "x"), ("id", JSVal.num 2)]] :=
  ⟨by decide,
   sort_stable { key := "k", direction := SortDir.asc } _ _ _ (by decide)
     (List.Sublist.refl _)⟩

/-- A row with a nullish sort field compares greater than anything. -/
theorem sortCmp_null_left (srt : SortSpec) (a b : Row)
    (h : isNullish (rowGet a srt.key) = true) : sortCmp srt a b = 1 := by
  unfold sortCmp
  simp [h]

/-- A row with a non-nullish sort field compares less than a nullish one. -/
theorem sortCmp_null_right (srt : SortSpec) (a b : Row)
    (h1 : isNullish (rowGet a srt.key) = false)
    (h2 : isNullish (rowGet b srt.key) = true) : sortCmp srt a b = -1 := by
  unfold sortCmp
  simp [h1, h2]

/-- Inserting into a nulls-last list keeps nulls last. -/
theorem orderedInsert_nulls_last (srt : SortSpec) (a : Row) :
    ∀ {s : List Row},
      s.Pairwise (fun x y => isNullish (rowGet x srt.key) = true →
        isNullish (rowGet y srt.key) = true) →
      (s.orderedInsert (sortLE srt) a).Pairwise
        (fun x y => isNullish (rowGet x srt.key) = true →
          isNullish (rowGet y srt.key) = true) := by
  intro s hs
  induction s with
  | nil => simp [List.orderedInsert]
  | cons b t ih =>
    rw [List.orderedInsert]
    rcases List.pairwise_cons.mp hs with ⟨hb, ht⟩
    by_cases hr : sortLE srt a b
    · rw [if_pos hr]
      refine List.pairwise_cons.mpr ⟨?_, hs⟩
      intro y hy hnull
      exact absurd hr (by unfold sortLE; rw [sortCmp_null_left srt a b hnull]; omega)
    · rw [if_neg hr]
      refine List.pairwise_cons.mpr ⟨?_, ih ht⟩
      intro y hy hbnull
      rcases (List.mem_orderedInsert (sortLE srt)).mp hy with hya | hyt
      · subst hya
        rcases Bool.eq_false_or_eq_true (isNullish (rowGet y srt.key)) with han | han
        · exact han
        · exact absurd (show sortLE srt y b by
            unfold sortLE
            rw [sortCmp_null_right srt y b han hbnull]
            omega) hr
      · exact hb y hyt hbnull

/-- The whole insertion sort keeps nulls last. -/
theorem insertionSort_nulls_last (srt : SortSpec) :
    ∀ l : List Row,
      (l.insertionSort (sortLE srt)).Pairwise
        (fun x y => isNullish (rowGet x srt.key) = true →
          isNullish (rowGet y srt.key) = true) := by
  intro l
  induction l with
  | nil => simp [List.insertionSort]
  | cons x t ih =>
    rw [List.insertionSort]
    exact orderedInsert_nulls_last srt x ih

/-- Claim C8: under any active sort, in either direction, every row whose
sort field is null or absent is placed after every row with a non-nullish
field: in the sorted output a nullish-field row never precedes a
non-nullish-field one. -/
theorem sort_nulls_last (srt : SortSpec) (l : List Row) :
    (sortedData (some srt) l).Pairwise
      (fun x y => isNullish (rowGet x srt.key) = true →
        isNullish (rowGet y srt.key) = true) :=
  insertionSort_nulls_last srt l

/-- Claim C9: in the open state, a pointer-down outside both trigger and
menu closes the popover; one inside either leaves the state unchanged;
Escape closes it; and toggling an option or select-all changes only the
selected set and never closes the popover. -/
theorem popover_transitions (st : PopoverState) (h : st.isOpen = true) :
    popoverMousedown st false false = { st with isOpen := false }
    ∧ (∀ inTrigger inMenu : Bool, (inTrigger || inMenu) = true →
        popoverMousedown st inTrigger inMenu = st)
    ∧ (popoverKeydown st "Escape").isOpen = false
    ∧ (∀ opt : String, (handleSelect st opt).isOpen = true)
    ∧ (∀ options : List String, (handleSelectAll st options).isOpen = true) := by
  refine ⟨?_, ?_, ?_, ?_, ?_⟩
  · simp [popoverMousedown, h]
  · intro inT inM hin
    simp [popoverMousedown, h, hin]
  · simp [popoverKeydown, h]
  · intro opt
    unfold handleSelect
    split <;> simp [h]
  · intro options
    unfold handleSelectAll
    split <;> simp [h]

theorem popover_transitions_witness :
    popoverMousedown { isOpen := true, value := [] } false false
        = { isOpen := false, value := [] }
    ∧ (popoverKeydown { isOpen := true, value := [] } "Escape").isOpen = false
    ∧ (handleSelect { isOpen := true, value := [] } "x").isOpen = true :=
  ⟨(popover_transitions ⟨true, []⟩ rfl).1,
   (popover_transitions ⟨true, []⟩ rfl).2.2.1,
   (popover_transitions ⟨true, []⟩ rfl).2.2.2.1 "x"⟩
